import Mathlib

/-!
Verification of the FRISCO WHISPER transcript versioning and format-conversion
subsystem (`src/data/format_converters.py`, `src/data/transcript_manager.py`).

Python floats are modelled as rationals (`ℚ`); all inputs exercised by the
claims are exactly representable, and the repository validates segments to
non-negative timestamps.  Python dictionaries for segments are modelled as a
record with the three required keys (`validate_segments` demands exactly those
keys).  JSON serialisation (`json.dumps` / `json.loads`, an external standard
library treated as a faithful inverse pair) is modelled at the level of a JSON
syntax tree.
-/

/-- Left-pads the decimal representation of `n` with zeros to `width` digits,
modelling Python's `f"{n:02d}"` / `f"{n:03d}"` for non-negative `n`. -/
def padZeros (width : Nat) (n : Nat) : String :=
  let s := toString n
  String.mk (List.replicate (width - s.length) '0') ++ s

/-- Python's float modulo `a % b` for `b > 0`: the representative of `a` modulo
`b` lying in `[0, b)`. -/
def pyMod (a b : ℚ) : ℚ := a - b * ((a / b).floor : ℚ)

/-- Whitespace characters recognised by Python's `str.strip()` (ASCII range;
the claims only exercise these). -/
def pyIsSpace (c : Char) : Bool :=
  c = ' ' || c = '\t' || c = '\n' || c = '\r' || c = '\x0b' || c = '\x0c'

/-- Python's `str.strip()`: removes leading and trailing whitespace. -/
def pyStrip (s : String) : String :=
  String.mk (((s.data.dropWhile pyIsSpace).reverse.dropWhile pyIsSpace).reverse)

/-- Python's `x or default` applied to an optional string: `None` and the empty
string are falsy and give the default. -/
def pyOrStr (o : Option String) (d : String) : String :=
  match o with
  | none => d
  | some t => if t = "" then d else t

/-- Transcription segment, the record shape `validate_segments` requires:
`start`, `end` (seconds) and `text`. -/
structure Segment where
  start : ℚ
  «end» : ℚ
  text : String
deriving DecidableEq, Repr

/-- FormatConverter._format_timestamp_srt: `HH:MM:SS,mmm` with a comma before
the milliseconds.  Faithful for the non-negative timestamps that
`validate_segments` admits (Python's `int()` truncation equals floor there). -/
def formatTimestampSrt (seconds : ℚ) : String :=
  let hours := (seconds / 3600).floor.toNat
  let minutes := (pyMod seconds 3600 / 60).floor.toNat
  let secs := (pyMod seconds 60).floor.toNat
  let millis := (pyMod seconds 1 * 1000).floor.toNat
  padZeros 2 hours ++ ":" ++ padZeros 2 minutes ++ ":" ++ padZeros 2 secs
    ++ "," ++ padZeros 3 millis

/-- FormatConverter._format_timestamp_vtt: `HH:MM:SS.mmm` with a dot before
the milliseconds. -/
def formatTimestampVtt (seconds : ℚ) : String :=
  let hours := (seconds / 3600).floor.toNat
  let minutes := (pyMod seconds 3600 / 60).floor.toNat
  let secs := (pyMod seconds 60).floor.toNat
  let millis := (pyMod seconds 1 * 1000).floor.toNat
  padZeros 2 hours ++ ":" ++ padZeros 2 minutes ++ ":" ++ padZeros 2 secs
    ++ "." ++ padZeros 3 millis

/-- FormatConverter._format_timestamp_human: `HH:MM:SS`, or `MM:SS` when the
hour component is zero. -/
def formatTimestampHuman (seconds : ℚ) : String :=
  let hours := (seconds / 3600).floor.toNat
  let minutes := (pyMod seconds 3600 / 60).floor.toNat
  let secs := (pyMod seconds 60).floor.toNat
  if hours > 0 then
    padZeros 2 hours ++ ":" ++ padZeros 2 minutes ++ ":" ++ padZeros 2 secs
  else
    padZeros 2 minutes ++ ":" ++ padZeros 2 secs

/-- Lines contributed by one emitted SRT block: sequence number, timestamp
line, stripped text, and the blank separator line. -/
def srtBlock (idx : Nat) (seg : Segment) : List String :=
  [toString idx,
   formatTimestampSrt seg.start ++ " --> " ++ formatTimestampSrt seg.«end»,
   pyStrip seg.text,
   ""]

/-- FormatConverter.to_srt.  The loop enumerates ALL segments starting at 1
(`enumerate(segments, start=1)`) and `continue`s on empty-after-strip text, so
a skipped segment contributes no lines but still consumes its index. -/
def to_srt (segments : List Segment) : String :=
  if segments.isEmpty then ""
  else
    let srt_lines :=
      ((List.enumFrom 1 segments).map (fun p =>
        if pyStrip p.2.text = "" then [] else srtBlock p.1 p.2)).flatten
    String.intercalate "\n" srt_lines

/-- Optional metadata accepted by `to_vtt` (`language` / `title` keys). -/
structure VttMetadata where
  language : Option String
  title : Option String
deriving DecidableEq, Repr

/-- Lines contributed by one emitted VTT block (no sequence number). -/
def vttBlock (seg : Segment) : List String :=
  [formatTimestampVtt seg.start ++ " --> " ++ formatTimestampVtt seg.«end»,
   pyStrip seg.text,
   ""]

/-- Header lines of a VTT document: `WEBVTT`, optional metadata lines, then a
blank line. -/
def vttHeader (metadata : Option VttMetadata) : List String :=
  ["WEBVTT"] ++
    (match metadata with
     | none => []
     | some md =>
         (match md.language with
          | some l => ["Language: " ++ l]
          | none => []) ++
         (match md.title with
          | some t => ["Title: " ++ t]
          | none => [])) ++
    [""]

/-- FormatConverter.to_vtt.  Empty input short-circuits to the bare header
string; otherwise header lines plus blocks, empty-text segments skipped. -/
def to_vtt (segments : List Segment) (metadata : Option VttMetadata) : String :=
  if segments.isEmpty then "WEBVTT\n\n"
  else
    String.intercalate "\n"
      (vttHeader metadata ++
        ((segments.map (fun seg =>
          if pyStrip seg.text = "" then [] else vttBlock seg)).flatten))

/-- FormatConverter.to_txt: newline-joined stripped texts, optionally prefixed
with a human timestamp; empty-text segments skipped. -/
def to_txt (segments : List Segment) (include_timestamps : Bool) : String :=
  if segments.isEmpty then ""
  else
    String.intercalate "\n"
      ((segments.map (fun seg =>
        if pyStrip seg.text = "" then []
        else if include_timestamps then
          ["[" ++ formatTimestampHuman seg.start ++ "] " ++ pyStrip seg.text]
        else [pyStrip seg.text])).flatten)

/-- Fixed 3-decimal rendering of a non-negative rational, modelling Python's
`f"{x:.3f}"` (ties in the rounding differ only on inputs no claim uses). -/
def formatFixed3Nonneg (q : ℚ) : String :=
  let n := (q * 1000 + 1 / 2).floor.toNat
  toString (n / 1000) ++ "." ++ padZeros 3 (n % 1000)

/-- Fixed 3-decimal rendering, signed. -/
def formatFixed3 (q : ℚ) : String :=
  if q < 0 then "-" ++ formatFixed3Nonneg (-q) else formatFixed3Nonneg q

/-- Minimal CSV quoting (`csv.QUOTE_MINIMAL`): quote a field only when it
contains the delimiter, a quote character, or a line break; double inner
quotes. -/
def csvField (delimiter : Char) (s : String) : String :=
  if s.contains delimiter || s.contains '"' || s.contains '\n' || s.contains '\r' then
    "\"" ++ s.replace "\"" "\"\"" ++ "\""
  else s

/-- One CSV data row (`index,start,end,duration,text` plus the `\n`
line terminator used by the writer). -/
def csvRow (delimiter : Char) (idx : Nat) (seg : Segment) : String :=
  String.intercalate (String.mk [delimiter])
    [toString idx, formatFixed3 seg.start, formatFixed3 seg.«end»,
     formatFixed3 (seg.«end» - seg.start), csvField delimiter (pyStrip seg.text)]
    ++ "\n"

/-- CSV header row. -/
def csvHeader (delimiter : Char) : String :=
  String.intercalate (String.mk [delimiter])
    ["index", "start", "end", "duration", "text"] ++ "\n"

/-- Data rows written by FormatConverter.to_csv: enumeration over ALL
segments starting at 1, with empty-after-strip rows skipped (the index still
advances on skipped segments). -/
def csvRows (delimiter : Char) (segments : List Segment) : List String :=
  ((List.enumFrom 1 segments).map (fun p =>
    if pyStrip p.2.text = "" then [] else [csvRow delimiter p.1 p.2])).flatten

/-- FormatConverter.to_csv. -/
def to_csv (segments : List Segment) (include_header : Bool) (delimiter : Char) :
    String :=
  if segments.isEmpty then ""
  else
    (if include_header then csvHeader delimiter else "")
      ++ String.join (csvRows delimiter segments)

/-- JSON syntax tree; the value produced by `json.loads` / consumed by
`json.dumps`. -/
inductive Json where
  | null : Json
  | bool : Bool → Json
  | num : ℚ → Json
  | str : String → Json
  | arr : List Json → Json
  | obj : List (String × Json) → Json

/-- JSON encoding of one segment dictionary. -/
def segToJson (s : Segment) : Json :=
  Json.obj [("start", Json.num s.start), ("end", Json.num s.«end»),
            ("text", Json.str s.text)]

/-- FormatConverter.to_json, at the JSON-tree level (`pretty` only affects the
whitespace `json.dumps` inserts, not the tree). -/
def to_json (segments : List Segment) (text : Option String)
    (metadata : Option Json) (pretty : Bool) : Json :=
  Json.obj [
    ("format", Json.str "whisper-json"),
    ("version", Json.str "1.0"),
    ("metadata", metadata.getD (Json.obj [])),
    ("text", Json.str (pyOrStr text "")),
    ("segment_count", Json.num segments.length),
    ("segments", Json.arr (segments.map segToJson))]

/-- Result record of FormatConverter.from_json. -/
structure FromJsonResult where
  segments : Json
  text : Json
  metadata : Json

/-- Python `dict.get(key, default)` on a parsed JSON object. -/
def jsonGet (j : Json) (key : String) (default : Json) : Json :=
  match j with
  | Json.obj kvs =>
      match kvs.find? (fun kv => kv.1 = key) with
      | some kv => kv.2
      | none => default
  | _ => default

/-- FormatConverter.from_json applied to an already-parsed JSON document
(`json.loads` of a well-formed string; malformed input raises before this
logic runs). -/
def from_json (j : Json) : FromJsonResult :=
  { segments := jsonGet j "segments" (Json.arr [])
    text := jsonGet j "text" (Json.str "")
    metadata := jsonGet j "metadata" (Json.obj []) }

/-- FormatConverter.validate_segments: every segment has non-negative
timestamps and `end >= start` (key presence holds by the record shape). -/
def validate_segments (segments : List Segment) : Bool :=
  segments.all (fun s =>
    decide (0 ≤ s.start) && decide (0 ≤ s.«end») && !decide (s.«end» < s.start))

/-- Statistics record produced by DiffGenerator.segment_diff. -/
structure SegmentDiffResult where
  old_segment_count : Nat
  new_segment_count : Nat
  segment_diff : Int
  old_duration : ℚ
  new_duration : ℚ
  duration_diff : ℚ
  matching_segments : Nat
  changed_segments : Int
  similarity_percent : ℚ
deriving DecidableEq, Repr

/-- Key set of the Python dict comprehension keyed on `(start, text)`:
duplicate keys collapse. -/
def segKeys (segments : List Segment) : List (ℚ × String) :=
  (segments.map (fun s => (s.start, s.text))).dedup

/-- The `end` of the last segment (`segments[-1]['end']`), 0 on the empty
list. -/
def lastEnd (segments : List Segment) : ℚ :=
  match segments.getLast? with
  | some s => s.«end»
  | none => 0

/-- DiffGenerator.segment_diff. -/
def segment_diff (old_segments new_segments : List Segment) : SegmentDiffResult :=
  let old_count := old_segments.length
  let new_count := new_segments.length
  let okeys := segKeys old_segments
  let nkeys := segKeys new_segments
  let matching := (okeys.filter (fun k => decide (k ∈ nkeys))).length
  { old_segment_count := old_count
    new_segment_count := new_count
    segment_diff := (new_count : Int) - (old_count : Int)
    old_duration := lastEnd old_segments
    new_duration := lastEnd new_segments
    duration_diff := lastEnd new_segments - lastEnd old_segments
    matching_segments := matching
    changed_segments := (old_count : Int) + (new_count : Int) - 2 * (matching : Int)
    similarity_percent :=
      if max old_count new_count > 0 then
        (matching : ℚ) / (max old_count new_count : ℚ) * 100
      else 0 }

/-- Entries of the converter loops that survive the empty-text skip: each is
the enumeration index (the 1-based position in the INPUT list) paired with the
segment. -/
def emittedEntries (segments : List Segment) : List (Nat × Segment) :=
  (List.enumFrom 1 segments).filter (fun p => !decide (pyStrip p.2.text = ""))

/-- Segments surviving the empty-text skip, without indices. -/
def keptSegments (segments : List Segment) : List Segment :=
  segments.filter (fun s => !decide (pyStrip s.text = ""))

/-- Modelled from the spec: the SRT rendering the spec's skip rule describes,
in which sequence numbers are assigned contiguously `1..k` over the emitted
(non-skipped) entries only.  Written from the spec wording, for comparison
with `to_srt`. -/
def to_srt_specNumbering (segments : List Segment) : String :=
  if segments.isEmpty then ""
  else
    String.intercalate "\n"
      (((List.enumFrom 1 (keptSegments segments)).map
        (fun p => srtBlock p.1 p.2)).flatten)

theorem flatten_map_eq_filter {α β : Type} (l : List α) (f : α → List β)
    (p : α → Bool) (h : ∀ x, p x = false → f x = []) :
    (l.map f).flatten = ((l.filter p).map f).flatten := by
  induction l with
  | nil => rfl
  | cons x xs ih =>
    by_cases hx : p x = true
    · simp only [List.map_cons, List.flatten_cons, List.filter_cons, hx,
        if_pos, ih]
    · simp only [Bool.not_eq_true] at hx
      simp only [List.map_cons, List.flatten_cons, List.filter_cons, hx,
        h x hx, List.nil_append, Bool.false_eq_true, if_false, ih]

theorem flatten_map_singleton {α β : Type} (l : List α) (g : α → β) :
    (l.map (fun x => [g x])).flatten = l.map g := by
  induction l with
  | nil => rfl
  | cons x xs ih => simp [ih]

theorem to_srt_emitted (segments : List Segment) :
    to_srt segments =
      if segments.isEmpty then ""
      else
        String.intercalate "\n"
          (((emittedEntries segments).map (fun p => srtBlock p.1 p.2)).flatten) := by
  unfold to_srt emittedEntries
  by_cases h : segments.isEmpty
  · simp [h]
  · simp only [h, if_false]
    congr 1
    rw [flatten_map_eq_filter (List.enumFrom 1 segments) _
      (fun p => !decide (pyStrip p.2.text = ""))]
    · have hmap : List.map
          (fun p => if pyStrip p.2.text = "" then [] else srtBlock p.1 p.2)
          (List.filter (fun p => !decide (pyStrip p.2.text = ""))
            (List.enumFrom 1 segments)) =
          List.map (fun p => srtBlock p.1 p.2)
            (List.filter (fun p => !decide (pyStrip p.2.text = ""))
              (List.enumFrom 1 segments)) := by
        apply List.map_congr_left
        intro p hp
        have := (List.mem_filter.mp hp).2
        simp only [Bool.not_eq_true', decide_eq_false_iff_not] at this
        simp [this]
      rw [hmap]
    · intro p hp
      simp only [Bool.not_eq_false', decide_eq_true_eq] at hp
      simp [hp]

theorem csvRows_emitted (delimiter : Char) (segments : List Segment) :
    csvRows delimiter segments =
      (emittedEntries segments).map (fun p => csvRow delimiter p.1 p.2) := by
  unfold csvRows emittedEntries
  rw [flatten_map_eq_filter (List.enumFrom 1 segments) _
    (fun p => !decide (pyStrip p.2.text = ""))]
  · rw [← flatten_map_singleton (List.filter (fun p => !decide (pyStrip p.2.text = "")) (List.enumFrom 1 segments))
      (fun p => csvRow delimiter p.1 p.2)]
    have hmap : List.map
        (fun p => if pyStrip p.2.text = "" then [] else [csvRow delimiter p.1 p.2])
        (List.filter (fun p => !decide (pyStrip p.2.text = ""))
          (List.enumFrom 1 segments)) =
        List.map (fun p => [csvRow delimiter p.1 p.2])
          (List.filter (fun p => !decide (pyStrip p.2.text = ""))
            (List.enumFrom 1 segments)) := by
      apply List.map_congr_left
      intro p hp
      have := (List.mem_filter.mp hp).2
      simp only [Bool.not_eq_true', decide_eq_false_iff_not] at this
      simp [this]
    rw [hmap]
  · intro p hp
    simp only [Bool.not_eq_false', decide_eq_true_eq] at hp
    simp [hp]

theorem to_vtt_emitted (segments : List Segment) (metadata : Option VttMetadata) :
    to_vtt segments metadata =
      if segments.isEmpty then "WEBVTT\n\n"
      else
        String.intercalate "\n"
          (vttHeader metadata ++ ((keptSegments segments).map vttBlock).flatten) := by
  unfold to_vtt keptSegments
  by_cases h : segments.isEmpty
  · simp [h]
  · simp only [h, if_false]
    congr 2
    rw [flatten_map_eq_filter segments _ (fun s => !decide (pyStrip s.text = ""))]
    · have hmap : List.map
          (fun seg => if pyStrip seg.text = "" then [] else vttBlock seg)
          (List.filter (fun s => !decide (pyStrip s.text = "")) segments) =
          List.map vttBlock
            (List.filter (fun s => !decide (pyStrip s.text = "")) segments) := by
        apply List.map_congr_left
        intro s hs
        have := (List.mem_filter.mp hs).2
        simp only [Bool.not_eq_true', decide_eq_false_iff_not] at this
        simp [this]
      rw [hmap]
    · intro s hs
      simp only [Bool.not_eq_false', decide_eq_true_eq] at hs
      simp [hs]

theorem to_txt_emitted (segments : List Segment) (include_timestamps : Bool) :
    to_txt segments include_timestamps =
      if segments.isEmpty then ""
      else
        String.intercalate "\n"
          ((keptSegments segments).map (fun seg =>
            if include_timestamps then
              "[" ++ formatTimestampHuman seg.start ++ "] " ++ pyStrip seg.text
            else pyStrip seg.text)) := by
  unfold to_txt keptSegments
  by_cases h : segments.isEmpty
  · simp [h]
  · simp only [h, if_false]
    congr 1
    rw [flatten_map_eq_filter segments _ (fun s => !decide (pyStrip s.text = ""))]
    · rw [← flatten_map_singleton (List.filter (fun s => !decide (pyStrip s.text = "")) segments) (fun seg =>
        if include_timestamps then
          "[" ++ formatTimestampHuman seg.start ++ "] " ++ pyStrip seg.text
        else pyStrip seg.text)]
      have hmap : List.map
          (fun seg =>
            if pyStrip seg.text = "" then []
            else if include_timestamps then
              ["[" ++ formatTimestampHuman seg.start ++ "] " ++ pyStrip seg.text]
            else [pyStrip seg.text])
          (List.filter (fun s => !decide (pyStrip s.text = "")) segments) =
          List.map (fun seg =>
            [if include_timestamps then
              "[" ++ formatTimestampHuman seg.start ++ "] " ++ pyStrip seg.text
            else pyStrip seg.text])
            (List.filter (fun s => !decide (pyStrip s.text = "")) segments) := by
        apply List.map_congr_left
        intro s hs
        have := (List.mem_filter.mp hs).2
        simp only [Bool.not_eq_true', decide_eq_false_iff_not] at this
        by_cases hts : include_timestamps <;> simp [this, hts]
      rw [hmap]
    · intro s hs
      simp only [Bool.not_eq_false', decide_eq_true_eq] at hs
      simp [hs]

/-- C2, counterexample: on the input whose second segment is whitespace-only,
`to_srt` emits blocks numbered 1 and 3 (the skipped segment leaves a gap), and
`to_csv` emits index values 1 and 3 — not the contiguous 1, 2 the claim
states, as the spec-numbered rendering `to_srt_specNumbering` shows. -/
theorem c2_contiguous_numbering_counterexample :
    to_srt [⟨0, 1, "a"⟩, ⟨1, 2, " "⟩, ⟨2, 3, "b"⟩] =
      "1\n00:00:00,000 --> 00:00:01,000\na\n\n3\n00:00:02,000 --> 00:00:03,000\nb\n" ∧
    to_srt_specNumbering [⟨0, 1, "a"⟩, ⟨1, 2, " "⟩, ⟨2, 3, "b"⟩] =
      "1\n00:00:00,000 --> 00:00:01,000\na\n\n2\n00:00:02,000 --> 00:00:03,000\nb\n" ∧
    to_srt [⟨0, 1, "a"⟩, ⟨1, 2, " "⟩, ⟨2, 3, "b"⟩] ≠
      to_srt_specNumbering [⟨0, 1, "a"⟩, ⟨1, 2, " "⟩, ⟨2, 3, "b"⟩] ∧
    to_csv [⟨0, 1, "a"⟩, ⟨1, 2, " "⟩, ⟨2, 3, "b"⟩] true ',' =
      "index,start,end,duration,text\n1,0.000,1.000,1.000,a\n3,2.000,3.000,1.000,b\n" := by
  with_unfolding_all decide

/-- C2 (amended): segments whose text is empty after stripping never appear in
SRT/VTT/TXT/CSV output, but the sequence numbers emitted by `to_srt` and the
index column emitted by `to_csv` are the segments' 1-based positions in the
INPUT list, so skipping an empty segment leaves a gap in the numbering. -/
theorem c2_skip_rule_amended (segments : List Segment)
    (metadata : Option VttMetadata) (include_timestamps : Bool)
    (delimiter : Char) :
    (∀ p ∈ emittedEntries segments, pyStrip p.2.text ≠ "") ∧
    (∀ p ∈ emittedEntries segments,
      1 ≤ p.1 ∧ p.1 ≤ segments.length ∧ segments[p.1 - 1]? = some p.2) ∧
    to_srt segments =
      (if segments.isEmpty then ""
       else String.intercalate "\n"
         (((emittedEntries segments).map (fun p => srtBlock p.1 p.2)).flatten)) ∧
    to_csv segments true delimiter =
      (if segments.isEmpty then ""
       else csvHeader delimiter ++
         String.join ((emittedEntries segments).map
           (fun p => csvRow delimiter p.1 p.2))) ∧
    to_vtt segments metadata =
      (if segments.isEmpty then "WEBVTT\n\n"
       else String.intercalate "\n"
         (vttHeader metadata ++ ((keptSegments segments).map vttBlock).flatten)) ∧
    to_txt segments include_timestamps =
      (if segments.isEmpty then ""
       else String.intercalate "\n"
         ((keptSegments segments).map (fun seg =>
           if include_timestamps then
             "[" ++ formatTimestampHuman seg.start ++ "] " ++ pyStrip seg.text
           else pyStrip seg.text))) := by
  refine ⟨?_, ?_, to_srt_emitted segments, ?_, to_vtt_emitted segments metadata,
    to_txt_emitted segments include_timestamps⟩
  · intro p hp
    have := (List.mem_filter.mp hp).2
    simpa using this
  · intro p hp
    obtain ⟨i, seg⟩ := p
    have hmem := (List.mem_filter.mp hp).1
    obtain ⟨h1, h2, h3⟩ := List.mem_enumFrom hmem
    refine ⟨h1, by omega, ?_⟩
    have hlt : i - 1 < segments.length := by omega
    rw [List.getElem?_eq_getElem hlt]
    exact congrArg some h3.symm
  · unfold to_csv
    rw [csvRows_emitted]
    by_cases h : segments.isEmpty <;> simp [h]

set_option maxRecDepth 8000

/-- C5: on the two-segment input `[{0.0, 5.5, "Hello"}, {5.5, 12.0, "World"}]`,
`to_srt` produces exactly the numbered comma-millisecond blocks the claim
lists, and `to_vtt` starts with the `WEBVTT` header followed by the
dot-millisecond block for "Hello". -/
theorem c5_concrete_srt_vtt :
    to_srt [⟨0, 5.5, "Hello"⟩, ⟨5.5, 12, "World"⟩] =
      "1\n00:00:00,000 --> 00:00:05,500\nHello\n\n2\n00:00:05,500 --> 00:00:12,000\nWorld\n" ∧
    (to_vtt [⟨0, 5.5, "Hello"⟩, ⟨5.5, 12, "World"⟩] none).startsWith
      "WEBVTT\n\n00:00:00.000 --> 00:00:05.500\nHello\n\n" = true := by
  with_unfolding_all decide

/-- C10: on the empty segment list `to_vtt` returns exactly the header plus
blank line, while `to_srt`, `to_txt` and `to_csv` return the empty string,
whatever the optional arguments are; all four are total functions. -/
theorem c10_empty_input_outputs (metadata : Option VttMetadata)
    (include_timestamps include_header : Bool) (delimiter : Char) :
    to_vtt [] metadata = "WEBVTT\n\n" ∧
    to_srt [] = "" ∧
    to_txt [] include_timestamps = "" ∧
    to_csv [] include_header delimiter = "" :=
  ⟨rfl, rfl, rfl, rfl⟩

/-- C8, counterexample: on the list with two segments sharing the `(start,
text)` key `(0, "a")`, the Python dict comprehension collapses the key, so
`segment_diff S S` reports 1 matching segment (not `len S = 2`), 2 changed
segments (not 0) and 50% similarity (not 100%). -/
theorem c8_diff_self_counterexample :
    (segment_diff [⟨0, 1, "a"⟩, ⟨0, 2, "a"⟩] [⟨0, 1, "a"⟩, ⟨0, 2, "a"⟩]).matching_segments = 1 ∧
    (segment_diff [⟨0, 1, "a"⟩, ⟨0, 2, "a"⟩] [⟨0, 1, "a"⟩, ⟨0, 2, "a"⟩]).changed_segments = 2 ∧
    (segment_diff [⟨0, 1, "a"⟩, ⟨0, 2, "a"⟩] [⟨0, 1, "a"⟩, ⟨0, 2, "a"⟩]).similarity_percent = 50 ∧
    ([⟨0, 1, "a"⟩, ⟨0, 2, "a"⟩] : List Segment).length = 2 := by
  with_unfolding_all decide

/-- C8 (amended): for every segment list S whose `(start, text)` keys are
pairwise distinct, `segment_diff S S` yields `matching_segments = len S`,
`changed_segments = 0`, and `similarity_percent = 100` (0 when S is empty). -/
theorem c8_diff_self_amended (S : List Segment)
    (h : (S.map (fun s => (s.start, s.text))).Nodup) :
    (segment_diff S S).matching_segments = S.length ∧
    (segment_diff S S).changed_segments = 0 ∧
    (segment_diff S S).similarity_percent = if S.length = 0 then 0 else 100 := by
  have hkeys : segKeys S = S.map (fun s => (s.start, s.text)) := by
    unfold segKeys
    exact List.dedup_eq_self.mpr h
  have hfilter : (segKeys S).filter (fun k => decide (k ∈ segKeys S)) = segKeys S :=
    List.filter_eq_self.mpr (fun a ha => decide_eq_true ha)
  have hmatch : (segment_diff S S).matching_segments = S.length := by
    show ((segKeys S).filter (fun k => decide (k ∈ segKeys S))).length = S.length
    rw [hfilter, hkeys, List.length_map]
  refine ⟨hmatch, ?_, ?_⟩
  · show (S.length : Int) + (S.length : Int)
      - 2 * ((segment_diff S S).matching_segments : Int) = 0
    rw [hmatch]; ring
  · show (if max S.length S.length > 0 then
        ((segment_diff S S).matching_segments : ℚ) / (max S.length S.length : ℚ) * 100
      else 0) = if S.length = 0 then 0 else 100
    rw [hmatch, Nat.max_self, sup_idem]
    by_cases h0 : S.length = 0
    · simp [h0]
    · have hpos : S.length > 0 := Nat.pos_of_ne_zero h0
      rw [if_pos hpos, if_neg h0]
      rw [div_self (by exact_mod_cast h0 : ¬ (S.length : ℚ) = 0)]
      norm_num

/-- C8 witness: the amended theorem applied at the concrete one-element list,
whose key list is duplicate-free. -/
theorem c8_diff_self_amended_witness :
    (([⟨0, 1, "a"⟩] : List Segment).map (fun s => (s.start, s.text))).Nodup ∧
    ((segment_diff [⟨0, 1, "a"⟩] [⟨0, 1, "a"⟩]).matching_segments = 1 ∧
     (segment_diff [⟨0, 1, "a"⟩] [⟨0, 1, "a"⟩]).changed_segments = 0 ∧
     (segment_diff [⟨0, 1, "a"⟩] [⟨0, 1, "a"⟩]).similarity_percent =
       if ([⟨0, 1, "a"⟩] : List Segment).length = 0 then 0 else 100) :=
  ⟨by with_unfolding_all decide,
   c8_diff_self_amended [⟨0, 1, "a"⟩] (by with_unfolding_all decide)⟩

/-- C4: parsing the JSON produced by `to_json` recovers the segments exactly
(the segment encoding is injective, and rationals model the exact
`repr`/parse round-trip of Python floats) and the text character-for-character
(`text or ""` equals the text even when it is empty). -/
theorem c4_json_round_trip (segments : List Segment) (T : String)
    (metadata : Option Json) (pretty : Bool) :
    (from_json (to_json segments (some T) metadata pretty)).segments =
      Json.arr (segments.map segToJson) ∧
    (from_json (to_json segments (some T) metadata pretty)).text = Json.str T ∧
    ∀ s1 s2 : Segment, segToJson s1 = segToJson s2 → s1 = s2 := by
  refine ⟨rfl, ?_, ?_⟩
  · show Json.str (pyOrStr (some T) "") = Json.str T
    unfold pyOrStr
    by_cases h : T = "" <;> simp [h]
  · intro s1 s2 hseg
    cases s1; cases s2
    simp only [segToJson, Json.obj.injEq, List.cons.injEq, Prod.mk.injEq,
      Json.num.injEq, Json.str.injEq, and_true, true_and] at hseg
    obtain ⟨h1, h2, h3⟩ := hseg
    simp [h1, h2, h3]

/-- Exception kinds raised by `transcript_manager.py` (plus Python's built-in
`ValueError` used by `delete_old_versions`). -/
inductive TranscriptErr where
  | TranscriptNotFoundError (transcript_id : Nat)
  | VersionNotFoundError (transcript_id version : Nat)
  | TranscriptError (msg : String)
  | ValueError (msg : String)
deriving DecidableEq, Repr

/-- Row of the `transcript_versions` table belonging to one transcript. -/
structure VersionRow where
  version_number : Nat
  text : String
  segments : List Segment
  created_by : String
  change_note : String
  is_current : Bool
deriving DecidableEq, Repr

/-- Row of the `transcriptions` table together with its version rows. -/
structure TranscriptRow where
  id : Nat
  job_id : String
  language : String
  versions : List VersionRow
deriving DecidableEq, Repr

/-- Row of the `export_history` table. -/
structure ExportRow where
  transcription_id : Nat
  version_number : Option Nat
  format_name : String
deriving DecidableEq, Repr

/-- The SQLite database state the manager operates on: `nextId` models
AUTOINCREMENT row-id allocation for `transcriptions`. -/
structure Store where
  transcripts : List TranscriptRow
  exports : List ExportRow
  nextId : Nat
deriving DecidableEq, Repr

/-- Lookup `SELECT * FROM transcriptions WHERE id = ?`
(`_get_transcript_by_id`). -/
def findTranscript (s : Store) (tid : Nat) : Option TranscriptRow :=
  s.transcripts.find? (fun t => decide (t.id = tid))

/-- Write back an updated transcript row (an SQL UPDATE keyed on the id). -/
def setTranscript (s : Store) (t2 : TranscriptRow) : Store :=
  { s with transcripts :=
      s.transcripts.map (fun x => if x.id = t2.id then t2 else x) }

/-- Version numbers of a transcript's version rows, in row order. -/
def versionNumbers (vs : List VersionRow) : List Nat :=
  vs.map (fun v => v.version_number)

/-- Version numbers of the rows with `is_current = true`. -/
def currentNumbers (vs : List VersionRow) : List Nat :=
  (vs.filter (fun v => v.is_current)).map (fun v => v.version_number)

/-- Demotion of the previously-current version performed when a new version is
inserted (`is_current` flipped to false, everything else untouched). -/
def demoteRow (v : VersionRow) : VersionRow :=
  if v.is_current then { v with is_current := false } else v

/-- Version list after inserting a new current version: previous current row
demoted, new row appended. -/
def updatedVersions (vs : List VersionRow) (newV : VersionRow) : List VersionRow :=
  vs.map demoteRow ++ [newV]

/-- Modelled from the spec: the trigger installed by
`database/migrations/002_add_versioning.sql` (the migration file is not part
of `src/`).  Per spec sections 3/4.1/6, `save_transcript` atomically inserts
the transcript row and its Version 1 with `change_note = "Initial
transcription"` and `is_current = true`. -/
def save_transcript (s : Store) (job_id text : String)
    (segments : List Segment) (language created_by : String) :
    Except TranscriptErr (Store × Nat) :=
  if !validate_segments segments then
    Except.error (TranscriptErr.TranscriptError "Invalid segment structure")
  else
    let tid := s.nextId
    let v1 : VersionRow :=
      ⟨1, text, segments, created_by, "Initial transcription", true⟩
    Except.ok
      ({ transcripts := s.transcripts ++ [⟨tid, job_id, language, [v1]⟩]
         exports := s.exports
         nextId := tid + 1 }, tid)

/-- TranscriptManager.update_transcript.  The new-version insertion itself is
modelled from the spec (the trigger of migration 002 is not in `src/`): the
new row gets `version_number = current_max + 1`, `is_current = true`, and the
previously-current row is demoted in the same transaction; the manager then
sets `created_by` and the change note (defaulting to "Transcription updated"
via Python's falsy-`or`) on that row.  The whole operation is one atomic state
transition. -/
def update_transcript (s : Store) (tid : Nat) (text : String)
    (segments : List Segment) (created_by : String)
    (change_note : Option String) : Except TranscriptErr (Store × Nat) :=
  if !validate_segments segments then
    Except.error (TranscriptErr.TranscriptError "Invalid segment structure")
  else
    match findTranscript s tid with
    | none => Except.error (TranscriptErr.TranscriptNotFoundError tid)
    | some t =>
      let maxv := (versionNumbers t.versions).foldr max 0
      let newV : VersionRow :=
        ⟨maxv + 1, text, segments, created_by,
         pyOrStr change_note "Transcription updated", true⟩
      let t2 := { t with versions := updatedVersions t.versions newV }
      Except.ok (setTranscript s t2, maxv + 1)

/-- Record returned by `get_transcript` (the columns the claims are about). -/
structure TranscriptRecord where
  id : Nat
  job_id : String
  language : String
  version_number : Nat
  text : String
  segments : List Segment
  created_by : String
  change_note : String
deriving DecidableEq, Repr

/-- Python truthiness of the optional `version` argument: `None` and `0` are
falsy. -/
def pyTruthyNat (o : Option Nat) : Bool :=
  match o with
  | none => false
  | some n => decide (n ≠ 0)

/-- TranscriptManager.get_transcript: joins the transcript row with either the
current version (`version is None`) or the requested version number.  On an
empty join result the error kind is chosen by `if version:` — Python
truthiness of the argument, not existence of the transcript. -/
def get_transcript (s : Store) (tid : Nat) (version : Option Nat) :
    Except TranscriptErr TranscriptRecord :=
  let result : Option (TranscriptRow × VersionRow) :=
    match version with
    | none =>
      match findTranscript s tid with
      | none => none
      | some t => (t.versions.find? (fun v => v.is_current)).map (fun v => (t, v))
    | some vn =>
      match findTranscript s tid with
      | none => none
      | some t =>
        (t.versions.find? (fun v => decide (v.version_number = vn))).map
          (fun v => (t, v))
  match result with
  | some (t, v) =>
    Except.ok ⟨t.id, t.job_id, t.language, v.version_number, v.text,
      v.segments, v.created_by, v.change_note⟩
  | none =>
    if pyTruthyNat version then
      Except.error (TranscriptErr.VersionNotFoundError tid (version.getD 0))
    else
      Except.error (TranscriptErr.TranscriptNotFoundError tid)

/-- TranscriptManager.rollback_to_version: fetches the requested version and
re-submits its content through `update_transcript`, defaulting the change note
to "Rolled back to version N" (Python falsy-`or`). -/
def rollback_to_version (s : Store) (tid version_number : Nat)
    (created_by : String) (change_note : Option String) :
    Except TranscriptErr (Store × Nat) :=
  match get_transcript s tid (some version_number) with
  | Except.error e => Except.error e
  | Except.ok old =>
    let note := pyOrStr change_note
      ("Rolled back to version " ++ toString version_number)
    update_transcript s tid old.text old.segments created_by (some note)

/-- TranscriptManager.delete_old_versions: `keep_count < 1` raises ValueError
before touching the store; otherwise deletes the version rows whose
version_number is not among the `keep_count` most recent
(`ORDER BY version_number DESC LIMIT keep_count`), returning the deleted
count. -/
def delete_old_versions (s : Store) (tid : Nat) (keep_count : Int) :
    Except TranscriptErr (Store × Nat) :=
  if keep_count < 1 then
    Except.error (TranscriptErr.ValueError "keep_count must be at least 1")
  else
    match findTranscript s tid with
    | none => Except.error (TranscriptErr.TranscriptNotFoundError tid)
    | some t =>
      let sorted := List.insertionSort (fun a b : Nat => a ≥ b)
        (versionNumbers t.versions)
      let keep := sorted.take keep_count.toNat
      let remaining := t.versions.filter
        (fun v => decide (v.version_number ∈ keep))
      let deleted := t.versions.length - remaining.length
      Except.ok (setTranscript s { t with versions := remaining }, deleted)

/-- Statistics record produced by TranscriptManager.get_statistics (`NULL`
aggregates over an empty version table become `none`). -/
structure Statistics where
  total_transcripts : Nat
  total_versions : Nat
  avg_versions_per_transcript : Option ℚ
  max_versions : Option Nat
  total_exports : Nat
  formats_used : Nat
  exports_by_format : List (String × Nat)
deriving DecidableEq, Repr

/-- TranscriptManager.get_statistics.  The `total_versions` column is
`COUNT(*)` over the `GROUP BY transcription_id` subquery, i.e. it counts the
GROUPS — the transcripts owning at least one version — not the version
rows. -/
def get_statistics (s : Store) : Statistics :=
  let groups := s.transcripts.filter (fun t => !t.versions.isEmpty)
  let counts : List Nat := groups.map (fun t => t.versions.length)
  { total_transcripts := s.transcripts.length
    total_versions := groups.length
    avg_versions_per_transcript :=
      if counts.isEmpty then none
      else some ((counts.sum : ℚ) / (counts.length : ℚ))
    max_versions := if counts.isEmpty then none else some (counts.foldr max 0)
    total_exports := s.exports.length
    formats_used := (s.exports.map (fun e => e.format_name)).dedup.length
    exports_by_format :=
      (s.exports.map (fun e => e.format_name)).dedup.map
        (fun f => (f, (s.exports.filter
          (fun e => decide (e.format_name = f))).length)) }

/-- Modelled from the spec: the "total version count" the statistics are
specified to report — the number of version rows across all transcripts. -/
def total_version_rows (s : Store) : Nat :=
  (s.transcripts.map (fun t => t.versions.length)).sum

theorem foldr_max_le (n a : Nat) (h : n ≤ a) :
    (List.range' 1 n).foldr max a = a := by
  induction n generalizing a with
  | zero => rfl
  | succ m ih =>
    rw [List.range'_concat, List.foldr_append]
    simp only [List.foldr_cons, List.foldr_nil]
    have h1 : 1 + 1 * m = m + 1 := by ring
    rw [h1, Nat.max_eq_right (by omega : m + 1 ≤ a)]
    exact ih a (by omega)

theorem foldr_max_range' (n : Nat) :
    (List.range' 1 n).foldr max 0 = n := by
  cases n with
  | zero => rfl
  | succ m =>
    rw [List.range'_concat, List.foldr_append]
    simp only [List.foldr_cons, List.foldr_nil]
    have h1 : 1 + 1 * m = m + 1 := by ring
    rw [h1, Nat.max_eq_left (Nat.zero_le _)]
    exact foldr_max_le m (m + 1) (by omega)

theorem versionNumbers_updatedVersions (vs : List VersionRow)
    (newV : VersionRow) :
    versionNumbers (updatedVersions vs newV) =
      versionNumbers vs ++ [newV.version_number] := by
  unfold versionNumbers updatedVersions
  rw [List.map_append, List.map_map]
  congr 1
  apply List.map_congr_left
  intro v _
  unfold demoteRow
  by_cases h : v.is_current <;> simp [h]

theorem currentNumbers_updatedVersions (vs : List VersionRow)
    (newV : VersionRow) (h : newV.is_current = true) :
    currentNumbers (updatedVersions vs newV) = [newV.version_number] := by
  unfold currentNumbers updatedVersions
  rw [List.filter_append]
  have hnil : (vs.map demoteRow).filter (fun v => v.is_current) = [] := by
    rw [List.filter_eq_nil_iff]
    intro a ha
    obtain ⟨v, hv, rfl⟩ := List.mem_map.mp ha
    unfold demoteRow
    by_cases hc : v.is_current <;> simp [hc]
  rw [hnil]
  simp [h]

/-- Per-version content that rollback and retention must not disturb:
everything except the `is_current` flag. -/
structure VersionContent where
  version_number : Nat
  text : String
  segments : List Segment
  created_by : String
  change_note : String
deriving DecidableEq, Repr

/-- Projection of a version row to its immutable content. -/
def contentOf (v : VersionRow) : VersionContent :=
  ⟨v.version_number, v.text, v.segments, v.created_by, v.change_note⟩

theorem contentOf_updatedVersions (vs : List VersionRow) (newV : VersionRow) :
    (updatedVersions vs newV).map contentOf =
      vs.map contentOf ++ [contentOf newV] := by
  unfold updatedVersions
  rw [List.map_append, List.map_map]
  congr 1
  apply List.map_congr_left
  intro v _
  unfold demoteRow contentOf
  by_cases h : v.is_current <;> simp [h]

theorem find?_replace (l : List TranscriptRow) (tid : Nat)
    (t t2 : TranscriptRow)
    (h : l.find? (fun x => decide (x.id = tid)) = some t) (h2 : t2.id = tid) :
    (l.map (fun x => if x.id = t2.id then t2 else x)).find?
      (fun x => decide (x.id = tid)) = some t2 := by
  induction l with
  | nil => simp at h
  | cons x xs ih =>
    by_cases hx : x.id = tid
    · have hx2 : x.id = t2.id := by rw [h2]; exact hx
      simp only [List.map_cons, if_pos hx2]
      rw [List.find?_cons_of_pos]
      simp [h2]
    · have hx2 : ¬ x.id = t2.id := by rw [h2]; exact hx
      simp only [List.map_cons, if_neg hx2]
      rw [List.find?_cons_of_neg _ (by simp [hx])] at h
      rw [List.find?_cons_of_neg _ (by simp [hx])]
      exact ih h

theorem findTranscript_setTranscript (s : Store) (tid : Nat)
    (t t2 : TranscriptRow) (h : findTranscript s tid = some t)
    (h2 : t2.id = tid) :
    findTranscript (setTranscript s t2) tid = some t2 := by
  unfold findTranscript at h
  unfold findTranscript setTranscript
  exact find?_replace s.transcripts tid t t2 h h2

theorem update_transcript_step (s : Store) (tid : Nat) (t : TranscriptRow)
    (n : Nat) (txt : String) (segs : List Segment) (cb : String)
    (note : Option String)
    (hsel : findTranscript s tid = some t)
    (hval : validate_segments segs = true)
    (hnum : versionNumbers t.versions = List.range' 1 n) :
    update_transcript s tid txt segs cb note =
      Except.ok
        (setTranscript s
          { t with
            versions :=
              updatedVersions t.versions
                (VersionRow.mk (n + 1) txt segs cb
                  (pyOrStr note "Transcription updated") true) },
         n + 1) := by
  unfold update_transcript
  rw [hval, hsel]
  have hmax : (versionNumbers t.versions).foldr max 0 = n := by
    rw [hnum]; exact foldr_max_range' n
  simp only [Bool.not_true, Bool.false_eq_true, if_false, hmax]

/-- Arguments of one `update_transcript` call. -/
structure UpdateArgs where
  text : String
  segments : List Segment
  created_by : String
  change_note : Option String

/-- Sequential application of `update_transcript` calls to one transcript,
stopping at the first error. -/
def applyUpdates (tid : Nat) : Store → List UpdateArgs → Except TranscriptErr Store
  | s, [] => Except.ok s
  | s, u :: rest =>
    match update_transcript s tid u.text u.segments u.created_by u.change_note with
    | Except.error e => Except.error e
    | Except.ok (s2, _) => applyUpdates tid s2 rest

theorem applyUpdates_inv (tid : Nat) :
    ∀ (updates : List UpdateArgs) (s : Store) (t : TranscriptRow) (n : Nat),
      (∀ u ∈ updates, validate_segments u.segments = true) →
      findTranscript s tid = some t → t.id = tid →
      versionNumbers t.versions = List.range' 1 n →
      currentNumbers t.versions = [n] →
      ∀ k, k ≤ updates.length →
        ∃ sk tk,
          applyUpdates tid s (updates.take k) = Except.ok sk ∧
          findTranscript sk tid = some tk ∧ tk.id = tid ∧
          versionNumbers tk.versions = List.range' 1 (n + k) ∧
          currentNumbers tk.versions = [n + k]
  | [], s, t, n, hval, hsel, hid, hnum, hcur, k, hk => by
    have hk0 : k = 0 := by simpa using hk
    subst hk0
    exact ⟨s, t, rfl, hsel, hid, by simpa using hnum, by simpa using hcur⟩
  | u :: rest, s, t, n, hval, hsel, hid, hnum, hcur, k, hk => by
    cases k with
    | zero =>
      exact ⟨s, t, rfl, hsel, hid, by simpa using hnum, by simpa using hcur⟩
    | succ k' =>
      have hvu : validate_segments u.segments = true :=
        hval u (List.mem_cons_self u rest)
      have hstep := update_transcript_step s tid t n u.text u.segments
        u.created_by u.change_note hsel hvu hnum
      have hsel2 : findTranscript
          (setTranscript s
            { t with
              versions :=
                updatedVersions t.versions
                  (VersionRow.mk (n + 1) u.text u.segments u.created_by
                    (pyOrStr u.change_note "Transcription updated") true) })
          tid = some
            { t with
              versions :=
                updatedVersions t.versions
                  (VersionRow.mk (n + 1) u.text u.segments u.created_by
                    (pyOrStr u.change_note "Transcription updated") true) } :=
        findTranscript_setTranscript s tid t _ hsel hid
      have hnum2 : versionNumbers
          (updatedVersions t.versions
            (VersionRow.mk (n + 1) u.text u.segments u.created_by
              (pyOrStr u.change_note "Transcription updated") true)) =
          List.range' 1 (n + 1) := by
        rw [versionNumbers_updatedVersions, hnum, List.range'_concat]
        simp [Nat.add_comm]
      have hcur2 : currentNumbers
          (updatedVersions t.versions
            (VersionRow.mk (n + 1) u.text u.segments u.created_by
              (pyOrStr u.change_note "Transcription updated") true)) =
          [n + 1] :=
        currentNumbers_updatedVersions t.versions _ rfl
      obtain ⟨sk, tk, h1, h2, h3, h4, h5⟩ :=
        applyUpdates_inv tid rest (setTranscript s
            { t with
              versions :=
                updatedVersions t.versions
                  (VersionRow.mk (n + 1) u.text u.segments u.created_by
                    (pyOrStr u.change_note "Transcription updated") true) })
          _ (n + 1)
          (fun v hv => hval v (List.mem_cons_of_mem u hv))
          hsel2 hid hnum2 hcur2 k' (by simpa using hk)
      refine ⟨sk, tk, ?_, h2, h3, ?_, ?_⟩
      · rw [List.take_succ_cons]
        show (match update_transcript s tid u.text u.segments u.created_by
            u.change_note with
          | Except.error e => Except.error e
          | Except.ok (s2, _) => applyUpdates tid s2 (rest.take k')) =
          Except.ok sk
        rw [hstep]
        exact h1
      · rw [show n + (k' + 1) = n + 1 + k' from by omega]
        exact h4
      · rw [show n + (k' + 1) = n + 1 + k' from by omega]
        exact h5

/-- C1: starting from a store whose next row id is fresh, `save_transcript`
creates the transcript with exactly version 1 current, and after every prefix
of N subsequent `update_transcript` calls the stored version numbers are
exactly `1..k+1` with no gaps and exactly one row is current (the newest).
Each operation is a single atomic state transition in this model, matching the
single-transaction requirement. -/
theorem c1_version_monotonicity (s : Store)
    (job_id text language created_by : String) (segments : List Segment)
    (updates : List UpdateArgs)
    (hval : validate_segments segments = true)
    (hvalu : ∀ u ∈ updates, validate_segments u.segments = true)
    (hfresh : ∀ t ∈ s.transcripts, t.id ≠ s.nextId) :
    ∃ s1, save_transcript s job_id text segments language created_by =
        Except.ok (s1, s.nextId) ∧
      ∀ k, k ≤ updates.length → ∃ sk tk,
        applyUpdates s.nextId s1 (updates.take k) = Except.ok sk ∧
        findTranscript sk s.nextId = some tk ∧
        versionNumbers tk.versions = List.range' 1 (k + 1) ∧
        currentNumbers tk.versions = [k + 1] := by
  have hsave : save_transcript s job_id text segments language created_by =
      Except.ok
        ({ transcripts := s.transcripts ++
            [⟨s.nextId, job_id, language,
              [⟨1, text, segments, created_by, "Initial transcription", true⟩]⟩]
           exports := s.exports
           nextId := s.nextId + 1 }, s.nextId) := by
    unfold save_transcript
    rw [hval]
    rfl
  refine ⟨_, hsave, ?_⟩
  have hsel1 : findTranscript
      { transcripts := s.transcripts ++
          [⟨s.nextId, job_id, language,
            [⟨1, text, segments, created_by, "Initial transcription", true⟩]⟩]
        exports := s.exports
        nextId := s.nextId + 1 } s.nextId =
      some ⟨s.nextId, job_id, language,
        [⟨1, text, segments, created_by, "Initial transcription", true⟩]⟩ := by
    unfold findTranscript
    rw [List.find?_append]
    have hnone : s.transcripts.find? (fun t => decide (t.id = s.nextId)) = none :=
      List.find?_eq_none.mpr (fun x hx => by simp [hfresh x hx])
    rw [hnone]
    simp
  intro k hk
  obtain ⟨sk, tk, h1, h2, _, h4, h5⟩ :=
    applyUpdates_inv s.nextId updates _ _ 1 hvalu hsel1 rfl
      (by simp [versionNumbers]) (by simp [currentNumbers]) k hk
  refine ⟨sk, tk, h1, h2, ?_, ?_⟩
  · rw [show k + 1 = 1 + k from by omega]
    exact h4
  · rw [show k + 1 = 1 + k from by omega]
    exact h5

/-- C1 witness: the invariant theorem applied to the empty store, one saved
transcript and one update. -/
theorem c1_version_monotonicity_witness :
    validate_segments [⟨0, 1, "hi"⟩] = true ∧
    (∀ u ∈ [UpdateArgs.mk "hi2" [⟨0, 2, "hi2"⟩] "system" none],
      validate_segments u.segments = true) ∧
    (∀ t ∈ (Store.mk [] [] 1).transcripts, t.id ≠ (Store.mk [] [] 1).nextId) ∧
    (∃ s1, save_transcript (Store.mk [] [] 1) "job-1" "hi" [⟨0, 1, "hi"⟩]
        "en" "system" = Except.ok (s1, (Store.mk [] [] 1).nextId) ∧
      ∀ k, k ≤ [UpdateArgs.mk "hi2" [⟨0, 2, "hi2"⟩] "system" none].length →
        ∃ sk tk,
          applyUpdates (Store.mk [] [] 1).nextId s1
            ([UpdateArgs.mk "hi2" [⟨0, 2, "hi2"⟩] "system" none].take k) =
            Except.ok sk ∧
          findTranscript sk (Store.mk [] [] 1).nextId = some tk ∧
          versionNumbers tk.versions = List.range' 1 (k + 1) ∧
          currentNumbers tk.versions = [k + 1]) :=
  ⟨by with_unfolding_all decide,
   by
     intro u hu
     rw [List.mem_singleton] at hu
     subst hu
     with_unfolding_all decide,
   by
     intro t ht
     simp at ht,
   c1_version_monotonicity (Store.mk [] [] 1) "job-1" "hi" "en" "system"
     [⟨0, 1, "hi"⟩] [UpdateArgs.mk "hi2" [⟨0, 2, "hi2"⟩] "system" none]
     (by with_unfolding_all decide)
     (by
       intro u hu
       rw [List.mem_singleton] at hu
       subst hu
       with_unfolding_all decide)
     (by
       intro t ht
       simp at ht)⟩

/-- C3: from any reachable transcript state (version numbers `1..n`),
`rollback_to_version` to an existing version V appends a single new version
numbered `n+1 = max+1` carrying V's text and segments, with change note
defaulting to "Rolled back to version V"; every pre-existing version keeps its
number, text, segments, creator and note (only the `is_current` flag of the
previous current row changes), and the new row is the unique current one. -/
theorem c3_rollback_preserves_history (s : Store) (tid : Nat)
    (t : TranscriptRow) (n V : Nat) (vV : VersionRow) (created_by : String)
    (hsel : findTranscript s tid = some t) (hid : t.id = tid)
    (hnum : versionNumbers t.versions = List.range' 1 n)
    (hfind : t.versions.find? (fun v => decide (v.version_number = V)) = some vV)
    (hval : validate_segments vV.segments = true) :
    ∃ t2, rollback_to_version s tid V created_by none =
        Except.ok (setTranscript s t2, n + 1) ∧
      findTranscript (setTranscript s t2) tid = some t2 ∧
      t2.versions.map contentOf = t.versions.map contentOf ++
        [⟨n + 1, vV.text, vV.segments, created_by,
          "Rolled back to version " ++ toString V⟩] ∧
      versionNumbers t2.versions = List.range' 1 (n + 1) ∧
      currentNumbers t2.versions = [n + 1] := by
  have hget : get_transcript s tid (some V) =
      Except.ok ⟨t.id, t.job_id, t.language, vV.version_number, vV.text,
        vV.segments, vV.created_by, vV.change_note⟩ := by
    unfold get_transcript
    rw [hsel]
    show (match (t.versions.find? (fun v => decide (v.version_number = V))).map
        (fun v => (t, v)) with
      | some (t, v) =>
        Except.ok (TranscriptRecord.mk t.id t.job_id t.language
          v.version_number v.text v.segments v.created_by v.change_note)
      | none =>
        if pyTruthyNat (some V) = true then
          Except.error (TranscriptErr.VersionNotFoundError tid ((some V).getD 0))
        else Except.error (TranscriptErr.TranscriptNotFoundError tid)) = _
    rw [hfind]
    rfl
  have hne : ("Rolled back to version " ++ toString V) ≠ "" := by
    intro h
    have hlen := congrArg String.length h
    rw [String.length_append] at hlen
    have h23 : ("Rolled back to version " : String).length = 23 := rfl
    have h0 : ("" : String).length = 0 := rfl
    rw [h23, h0] at hlen
    omega
  have hnote : pyOrStr (some ("Rolled back to version " ++ toString V))
      "Transcription updated" = "Rolled back to version " ++ toString V := by
    show (if ("Rolled back to version " ++ toString V) = "" then
        "Transcription updated"
      else ("Rolled back to version " ++ toString V)) = _
    rw [if_neg hne]
  have hstep := update_transcript_step s tid t n vV.text vV.segments created_by
    (some ("Rolled back to version " ++ toString V)) hsel hval hnum
  rw [hnote] at hstep
  refine ⟨{ t with
      versions :=
        updatedVersions t.versions
          (VersionRow.mk (n + 1) vV.text vV.segments created_by
            ("Rolled back to version " ++ toString V) true) }, ?_, ?_, ?_, ?_, ?_⟩
  · unfold rollback_to_version
    rw [hget]
    exact hstep
  · exact findTranscript_setTranscript s tid t _ hsel hid
  · show (updatedVersions t.versions
        (VersionRow.mk (n + 1) vV.text vV.segments created_by
          ("Rolled back to version " ++ toString V) true)).map contentOf = _
    rw [contentOf_updatedVersions]
    rfl
  · show versionNumbers (updatedVersions t.versions
        (VersionRow.mk (n + 1) vV.text vV.segments created_by
          ("Rolled back to version " ++ toString V) true)) = _
    rw [versionNumbers_updatedVersions, hnum, List.range'_concat]
    simp [Nat.add_comm]
  · exact currentNumbers_updatedVersions t.versions _ rfl

/-- Demo transcript for the rollback witness: versions 1 and 2, version 2
current. -/
def c3DemoRow : TranscriptRow :=
  ⟨1, "job-1", "en",
    [⟨1, "a", [], "system", "Initial transcription", false⟩,
     ⟨2, "b", [], "system", "Transcription updated", true⟩]⟩

/-- Demo store for the rollback witness. -/
def c3DemoStore : Store := ⟨[c3DemoRow], [], 2⟩

/-- C3 witness: rolling the two-version demo transcript back to version 1
creates version 3 with version 1's content and the default change note. -/
theorem c3_rollback_preserves_history_witness :
    findTranscript c3DemoStore 1 = some c3DemoRow ∧
    c3DemoRow.id = 1 ∧
    versionNumbers c3DemoRow.versions = List.range' 1 2 ∧
    c3DemoRow.versions.find? (fun v => decide (v.version_number = 1)) =
      some ⟨1, "a", [], "system", "Initial transcription", false⟩ ∧
    validate_segments ([] : List Segment) = true ∧
    (∃ t2, rollback_to_version c3DemoStore 1 1 "system" none =
        Except.ok (setTranscript c3DemoStore t2, 3) ∧
      findTranscript (setTranscript c3DemoStore t2) 1 = some t2 ∧
      t2.versions.map contentOf = c3DemoRow.versions.map contentOf ++
        [⟨3, "a", [], "system", "Rolled back to version " ++ toString 1⟩] ∧
      versionNumbers t2.versions = List.range' 1 3 ∧
      currentNumbers t2.versions = [3]) :=
  ⟨by with_unfolding_all decide, by with_unfolding_all decide,
   by with_unfolding_all decide, by with_unfolding_all decide,
   by with_unfolding_all decide,
   c3_rollback_preserves_history c3DemoStore 1 c3DemoRow 2 1
     ⟨1, "a", [], "system", "Initial transcription", false⟩ "system"
     (by with_unfolding_all decide) (by with_unfolding_all decide)
     (by with_unfolding_all decide) (by with_unfolding_all decide)
     (by with_unfolding_all decide)⟩

/-- C7, counterexample: on the empty store, `get_transcript` with an unknown
transcript id AND a version argument raises VersionNotFoundError — not the
TranscriptNotFoundError the claim requires regardless of the version
argument (the code branches on `if version:`, the truthiness of the argument,
not on whether the transcript exists). -/
theorem c7_notfound_counterexample :
    get_transcript (Store.mk [] [] 1) 999999 (some 5) =
      Except.error (TranscriptErr.VersionNotFoundError 999999 5) ∧
    TranscriptErr.VersionNotFoundError 999999 5 ≠
      TranscriptErr.TranscriptNotFoundError 999999 :=
  ⟨by with_unfolding_all rfl, by decide⟩

/-- C7 (amended): with no (truthy) version argument, an unknown transcript id
raises TranscriptNotFoundError; with a nonzero version argument, any failed
lookup raises VersionNotFoundError — both when the transcript exists but the
version number does not, and when the transcript id itself is unknown. -/
theorem c7_notfound_amended (s : Store) (tid v : Nat) :
    (findTranscript s tid = none →
      get_transcript s tid none =
        Except.error (TranscriptErr.TranscriptNotFoundError tid)) ∧
    (v ≠ 0 → findTranscript s tid = none →
      get_transcript s tid (some v) =
        Except.error (TranscriptErr.VersionNotFoundError tid v)) ∧
    (∀ t, v ≠ 0 → findTranscript s tid = some t →
      t.versions.find? (fun vr => decide (vr.version_number = v)) = none →
      get_transcript s tid (some v) =
        Except.error (TranscriptErr.VersionNotFoundError tid v)) := by
  refine ⟨?_, ?_, ?_⟩
  · intro h
    unfold get_transcript
    rw [h]
    rfl
  · intro hv h
    unfold get_transcript
    rw [h]
    simp [pyTruthyNat, hv]
  · intro t hv hsel hnone
    unfold get_transcript
    rw [hsel]
    show (match (t.versions.find? (fun vr => decide (vr.version_number = v))).map
        (fun vr => (t, vr)) with
      | some (t, vr) =>
        Except.ok (TranscriptRecord.mk t.id t.job_id t.language
          vr.version_number vr.text vr.segments vr.created_by vr.change_note)
      | none =>
        if pyTruthyNat (some v) = true then
          Except.error (TranscriptErr.VersionNotFoundError tid ((some v).getD 0))
        else Except.error (TranscriptErr.TranscriptNotFoundError tid)) = _
    rw [hnone]
    simp [pyTruthyNat, hv]

/-- Demo store for the not-found witness: one transcript, id 1, version 1. -/
def c7DemoStore : Store :=
  ⟨[⟨1, "job-1", "en",
      [⟨1, "t", [], "system", "Initial transcription", true⟩]⟩], [], 2⟩

/-- C7 witness: the amended theorem applied to the demo store — unknown id
without version gives TranscriptNotFoundError, a missing version on the
existing transcript gives VersionNotFoundError, and an unknown id WITH a
version argument also gives VersionNotFoundError. -/
theorem c7_notfound_amended_witness :
    get_transcript c7DemoStore 999999 none =
      Except.error (TranscriptErr.TranscriptNotFoundError 999999) ∧
    get_transcript c7DemoStore 1 (some 999) =
      Except.error (TranscriptErr.VersionNotFoundError 1 999) ∧
    get_transcript c7DemoStore 999999 (some 999) =
      Except.error (TranscriptErr.VersionNotFoundError 999999 999) :=
  ⟨(c7_notfound_amended c7DemoStore 999999 999).1 (by with_unfolding_all decide),
   (c7_notfound_amended c7DemoStore 1 999).2.2
     ⟨1, "job-1", "en", [⟨1, "t", [], "system", "Initial transcription", true⟩]⟩
     (by with_unfolding_all decide) (by with_unfolding_all decide)
     (by with_unfolding_all decide),
   (c7_notfound_amended c7DemoStore 999999 999).2.1
     (by with_unfolding_all decide) (by with_unfolding_all decide)⟩

/-- Demo store for the statistics bug: ONE transcript owning TWO versions. -/
def c9DemoStore : Store :=
  ⟨[⟨1, "job-1", "en",
      [⟨1, "a", [], "system", "Initial transcription", false⟩,
       ⟨2, "b", [], "system", "Transcription updated", true⟩]⟩], [], 2⟩

/-- C9: `get_statistics` reports the other aggregates as specified, but its
`total_versions` is COUNT(*) over the GROUP BY subquery — the number of
transcripts owning versions — not the number of version rows: on a store with
one transcript and two version rows it reports 1 where the claim requires
2. -/
theorem c9_total_versions_bug :
    (get_statistics c9DemoStore).total_versions = 1 ∧
    total_version_rows c9DemoStore = 2 ∧
    (get_statistics c9DemoStore).total_transcripts = 1 ∧
    (get_statistics c9DemoStore).avg_versions_per_transcript = some 2 ∧
    (get_statistics c9DemoStore).max_versions = some 2 ∧
    (get_statistics c9DemoStore).total_exports = 0 ∧
    (get_statistics c9DemoStore).formats_used = 0 := by
  with_unfolding_all decide

theorem insertionSortGe_range' (n : Nat) :
    List.insertionSort (fun a b : Nat => a ≥ b) (List.range' 1 n) =
      (List.range' 1 n).reverse := by
  have hperm : (List.insertionSort (fun a b : Nat => a ≥ b)
      (List.range' 1 n)).Perm ((List.range' 1 n).reverse) :=
    (List.perm_insertionSort _ _).trans (List.reverse_perm _).symm
  have hs1 : List.Sorted (fun a b : Nat => a ≥ b)
      (List.insertionSort (fun a b : Nat => a ≥ b) (List.range' 1 n)) :=
    List.sorted_insertionSort _ _
  have hs2 : List.Sorted (fun a b : Nat => a ≥ b)
      ((List.range' 1 n).reverse) := by
    rw [List.Sorted, List.pairwise_reverse]
    exact List.pairwise_le_range' 1 n
  exact List.eq_of_perm_of_sorted hperm hs1 hs2

theorem length_of_versionNumbers {vs : List VersionRow} {n : Nat}
    (h : versionNumbers vs = List.range' 1 n) : vs.length = n := by
  have := congrArg List.length h
  simpa [versionNumbers] using this

theorem number_mem_of_mem {vs : List VersionRow} {l : List Nat}
    (h : versionNumbers vs = l) {v : VersionRow} (hv : v ∈ vs) :
    v.version_number ∈ l := by
  subst h
  exact List.mem_map_of_mem _ hv

/-- C6: with `keep_count < 1` the ValueError is raised with no store change;
on a reachable transcript state (numbers `1..n`, newest current) retention
with `keep_count = K` is an error-free no-op when `n = K`, and when `n = K+5`
it deletes exactly the 5 oldest rows, keeping the K rows with the highest
version numbers byte-for-byte — among them the current version. -/
theorem c6_retention_boundary (s : Store) (tid : Nat) (t : TranscriptRow)
    (n K : Nat)
    (hsel : findTranscript s tid = some t) (hid : t.id = tid)
    (hnum : versionNumbers t.versions = List.range' 1 n)
    (hcur : currentNumbers t.versions = [n])
    (hK : 1 ≤ K) :
    (∀ kc : Int, kc < 1 →
      delete_old_versions s tid kc =
        Except.error (TranscriptErr.ValueError "keep_count must be at least 1")) ∧
    (n = K →
      delete_old_versions s tid (K : Int) = Except.ok (setTranscript s t, 0) ∧
      findTranscript (setTranscript s t) tid = some t) ∧
    (n = K + 5 →
      delete_old_versions s tid (K : Int) =
        Except.ok (setTranscript s { t with versions := t.versions.drop 5 }, 5) ∧
      findTranscript (setTranscript s { t with versions := t.versions.drop 5 })
        tid = some { t with versions := t.versions.drop 5 } ∧
      versionNumbers (t.versions.drop 5) = List.range' 6 K ∧
      currentNumbers (t.versions.drop 5) = [n]) := by
  have hKpos : ¬ ((K : Int) < 1) := by omega
  refine ⟨?_, ?_, ?_⟩
  · intro kc hkc
    unfold delete_old_versions
    rw [if_pos hkc]
  · intro hnK
    subst hnK
    have hrem : t.versions.filter (fun v => decide (v.version_number ∈
        ((List.insertionSort (fun a b : Nat => a ≥ b)
          (versionNumbers t.versions)).take (n : Int).toNat))) = t.versions := by
      rw [hnum, insertionSortGe_range', Int.toNat_natCast]
      have hlenr : ((List.range' 1 n).reverse.length : Nat) ≤ n := by simp
      rw [List.take_of_length_le hlenr]
      apply List.filter_eq_self.mpr
      intro v hv
      have hmem := number_mem_of_mem hnum hv
      simp only [List.mem_reverse]
      exact decide_eq_true hmem
    constructor
    · unfold delete_old_versions
      rw [if_neg hKpos, hsel]
      simp only [hrem]
      have hd : t.versions.length - t.versions.length = 0 := by omega
      rw [hd]
    · exact findTranscript_setTranscript s tid t t hsel hid
  · intro hnK
    subst hnK
    have hsplit : List.range' 1 (K + 5) = List.range' 1 5 ++ List.range' 6 K := by
      have h := List.range'_append 1 5 K 1
      norm_num at h
      exact h.symm
    have h5 : (List.range' 1 5 : List Nat).length = 5 := by simp
    have htake5 : (versionNumbers t.versions).take 5 = List.range' 1 5 := by
      rw [hnum, hsplit]
      exact List.take_left' h5
    have hdrop5 : (versionNumbers t.versions).drop 5 = List.range' 6 K := by
      rw [hnum, hsplit]
      exact List.drop_left' h5
    have hmapA : versionNumbers (t.versions.take 5) = List.range' 1 5 := by
      unfold versionNumbers at htake5 ⊢
      rw [List.map_take, htake5]
    have hmapB : versionNumbers (t.versions.drop 5) = List.range' 6 K := by
      unfold versionNumbers at hdrop5 ⊢
      rw [List.map_drop, hdrop5]
    have hkeep : (List.insertionSort (fun a b : Nat => a ≥ b)
        (versionNumbers t.versions)).take (K : Int).toNat =
        (List.range' 6 K).reverse := by
      rw [hnum, insertionSortGe_range', Int.toNat_natCast, hsplit,
        List.reverse_append]
      exact List.take_left' (by simp)
    have hrem : t.versions.filter (fun v => decide (v.version_number ∈
        ((List.insertionSort (fun a b : Nat => a ≥ b)
          (versionNumbers t.versions)).take (K : Int).toNat))) =
        t.versions.drop 5 := by
      rw [hkeep]
      conv_lhs => rw [← List.take_append_drop 5 t.versions]
      rw [List.filter_append]
      have hA : (t.versions.take 5).filter (fun v => decide (v.version_number ∈
          (List.range' 6 K).reverse)) = [] := by
        rw [List.filter_eq_nil_iff]
        intro v hv
        have hmem := number_mem_of_mem hmapA hv
        rw [List.mem_range'_1] at hmem
        simp only [List.mem_reverse, List.mem_range'_1, decide_eq_true_eq]
        omega
      have hB : (t.versions.drop 5).filter (fun v => decide (v.version_number ∈
          (List.range' 6 K).reverse)) = t.versions.drop 5 := by
        apply List.filter_eq_self.mpr
        intro v hv
        have hmem := number_mem_of_mem hmapB hv
        simp only [List.mem_reverse]
        exact decide_eq_true hmem
      rw [hA, hB, List.nil_append]
    have hlenT : t.versions.length = K + 5 := length_of_versionNumbers hnum
    have hlenB : (t.versions.drop 5).length = K := by
      have := congrArg List.length hmapB
      simpa [versionNumbers] using this
    have hcurB : currentNumbers (t.versions.drop 5) = [K + 5] := by
      have hABfilter : currentNumbers (t.versions.take 5) ++
          currentNumbers (t.versions.drop 5) = [K + 5] := by
        unfold currentNumbers
        rw [← List.map_append, ← List.filter_append, List.take_append_drop]
        exact hcur
      have hAnil : currentNumbers (t.versions.take 5) = [] := by
        by_contra hne
        obtain ⟨x, hx⟩ := List.exists_mem_of_ne_nil _ hne
        have hx5 : x ∈ [K + 5] := by
          rw [← hABfilter]
          exact List.mem_append_left _ hx
        have hxr : x = K + 5 := by simpa using hx5
        unfold currentNumbers at hx
        obtain ⟨v, hvmem, hveq⟩ := List.mem_map.mp hx
        have hvA : v ∈ t.versions.take 5 := List.mem_of_mem_filter hvmem
        have := number_mem_of_mem hmapA hvA
        rw [hveq, hxr, List.mem_range'_1] at this
        omega
      rw [hAnil, List.nil_append] at hABfilter
      exact hABfilter
    refine ⟨?_, findTranscript_setTranscript s tid t _ hsel hid, hmapB, hcurB⟩
    unfold delete_old_versions
    rw [if_neg hKpos, hsel]
    simp only [hrem]
    have hd : t.versions.length - (t.versions.drop 5).length = 5 := by
      rw [hlenT, hlenB]
      omega
    rw [hd]

/-- Demo transcript for the retention witness: versions 1..6, newest
current. -/
def c6DemoRow : TranscriptRow :=
  ⟨1, "job-1", "en",
    [⟨1, "a", [], "system", "Initial transcription", false⟩,
     ⟨2, "b", [], "system", "Transcription updated", false⟩,
     ⟨3, "c", [], "system", "Transcription updated", false⟩,
     ⟨4, "d", [], "system", "Transcription updated", false⟩,
     ⟨5, "e", [], "system", "Transcription updated", false⟩,
     ⟨6, "f", [], "system", "Transcription updated", true⟩]⟩

/-- Demo store for the retention witness. -/
def c6DemoStore : Store := ⟨[c6DemoRow], [], 2⟩

/-- C6 witness: the retention theorem applied to the six-version demo
transcript with `keep_count = 1` (so n = K + 5): it deletes exactly 5 rows,
keeps the highest-numbered row, retains the current version, and rejects
`keep_count = 0` with ValueError. -/
theorem c6_retention_boundary_witness :
    findTranscript c6DemoStore 1 = some c6DemoRow ∧
    c6DemoRow.id = 1 ∧
    versionNumbers c6DemoRow.versions = List.range' 1 6 ∧
    currentNumbers c6DemoRow.versions = [6] ∧
    (1 : Nat) ≤ 1 ∧
    (delete_old_versions c6DemoStore 1 ((1 : Nat) : Int) =
        Except.ok (setTranscript c6DemoStore
          { c6DemoRow with versions := c6DemoRow.versions.drop 5 }, 5) ∧
      versionNumbers (c6DemoRow.versions.drop 5) = List.range' 6 1 ∧
      currentNumbers (c6DemoRow.versions.drop 5) = [6]) ∧
    delete_old_versions c6DemoStore 1 0 =
      Except.error (TranscriptErr.ValueError "keep_count must be at least 1") :=
  ⟨by with_unfolding_all decide, by with_unfolding_all decide,
   by with_unfolding_all decide, by with_unfolding_all decide, by decide,
   (by
     have h := c6_retention_boundary c6DemoStore 1 c6DemoRow 6 1
       (by with_unfolding_all decide) (by with_unfolding_all decide)
       (by with_unfolding_all decide) (by with_unfolding_all decide)
       (by decide)
     exact ⟨(h.2.2 rfl).1, (h.2.2 rfl).2.2.1, (h.2.2 rfl).2.2.2⟩),
   (by
     have h := c6_retention_boundary c6DemoStore 1 c6DemoRow 6 1
       (by with_unfolding_all decide) (by with_unfolding_all decide)
       (by with_unfolding_all decide) (by with_unfolding_all decide)
       (by decide)
     exact h.1 0 (by decide))⟩

/-- C2 witness: the amended skip-rule theorem applied to a concrete list whose
second segment is whitespace-only, evaluated at the first emitted entry. -/
theorem c2_skip_rule_amended_witness :
    ((1, (⟨0, 1, "a"⟩ : Segment)) ∈ emittedEntries [⟨0, 1, "a"⟩, ⟨1, 2, " "⟩]) ∧
    pyStrip (⟨0, 1, "a"⟩ : Segment).text ≠ "" ∧
    (1 ≤ 1 ∧ 1 ≤ ([⟨0, 1, "a"⟩, ⟨1, 2, " "⟩] : List Segment).length ∧
      ([⟨0, 1, "a"⟩, ⟨1, 2, " "⟩] : List Segment)[1 - 1]? =
        some ⟨0, 1, "a"⟩) :=
  ⟨by with_unfolding_all decide,
   (c2_skip_rule_amended [⟨0, 1, "a"⟩, ⟨1, 2, " "⟩] none false ',').1
     (1, ⟨0, 1, "a"⟩) (by with_unfolding_all decide),
   (c2_skip_rule_amended [⟨0, 1, "a"⟩, ⟨1, 2, " "⟩] none false ',').2.1
     (1, ⟨0, 1, "a"⟩) (by with_unfolding_all decide)⟩

/-- C4 witness: the round-trip theorem applied at a concrete segment list and
text, with the injectivity conclusion instantiated at a concrete segment. -/
theorem c4_json_round_trip_witness :
    (from_json (to_json [⟨0, 1, "x"⟩] (some "x") none true)).segments =
      Json.arr (([⟨0, 1, "x"⟩] : List Segment).map segToJson) ∧
    (from_json (to_json [⟨0, 1, "x"⟩] (some "x") none true)).text =
      Json.str "x" ∧
    (⟨0, 1, "x"⟩ : Segment) = ⟨0, 1, "x"⟩ :=
  ⟨(c4_json_round_trip [⟨0, 1, "x"⟩] "x" none true).1,
   (c4_json_round_trip [⟨0, 1, "x"⟩] "x" none true).2.1,
   (c4_json_round_trip [⟨0, 1, "x"⟩] "x" none true).2.2 ⟨0, 1, "x"⟩
     ⟨0, 1, "x"⟩ rfl⟩
